import Mathlib

/-!
# Verification of the osp-magnum terrain chunk geometry engine

Shallow embedding of `src/planet-a/geometry.h` and `src/planet-a/geometry.cpp`
(namespace `planeta`): the `TerrainFaceWriter` face/normal emission algorithm
with its bounded two-window search for fan normal contribution records, and
`BasicTerrainGeometry::resize`.

Modelling conventions:
* `osp::Vector3` (float components) is modelled as a vector of rationals `V3`.
  Floating-point rounding is not modelled; the accumulation logic only uses
  `+`, `-` and zero, which behave identically.
* Magnum's float `.normalized()` (a square root, not representable over ℚ) is
  abstracted as an explicit function argument `nrmz : V3 → V3`; every theorem
  about face normals is proved for an arbitrary `nrmz`, so only the choice of
  the two cross-product operands and the data flow of the result are asserted.
* `osp::ArrayView` fields written through raw iterators (`vbufNrm`,
  `sharedNormals`, `fillNormalContrib`, the index buffer) are modelled as
  total functions `ℕ → _` (memory), with the span sizes kept as separate
  fields where a claim is about bounds.
* The chunk's fan contribution region `[fanNormalContrib.begin(), contribLast)`
  is modelled as the list `contribs`, with `contribCapacity` the span size
  (`fanNormalContrib.size()`).
* `LGRN_ASSERT` / `LGRN_ASSERTM` failures are modelled by returning `none`.
  `fan_add_face` contains no assertion in the source and is therefore total.
-/

namespace Planeta

/-- Vector type `osp::Vector3`: three components, modelled over ℚ (floats idealized). -/
structure V3 where
  x : ℚ
  y : ℚ
  z : ℚ
deriving DecidableEq, Repr

instance : Zero V3 := ⟨⟨0, 0, 0⟩⟩

instance : Add V3 := ⟨fun a b => ⟨a.x + b.x, a.y + b.y, a.z + b.z⟩⟩

instance : Sub V3 := ⟨fun a b => ⟨a.x - b.x, a.y - b.y, a.z - b.z⟩⟩

/-- Cross product `Magnum::Math::cross` for 3-component vectors. -/
def cross (u v : V3) : V3 :=
  ⟨u.y * v.z - u.z * v.y, u.z * v.x - u.x * v.z, u.x * v.y - u.y * v.x⟩

/-- Record `planeta::FanNormalContrib`: pairs a shared-vertex id with the partial sum
of face normals contributed by the current chunk. `SharedVrtxId` is an
integer handle, modelled as ℕ. -/
structure FanNormalContrib where
  shared : ℕ
  sum : V3
deriving DecidableEq, Repr

/-- Writer `planeta::TerrainFaceWriter`: one chunk build's writer state.
`contribs` is the populated prefix `[fanNormalContrib.begin(), contribLast)`
of the chunk's fan-contribution span; `contribCapacity` is the span's size.
`faces`/`currentFace` model the raw index-buffer iterator; `ibufSize` is the
length of the caller-provided face-buffer span. `dirty` is the
`rSharedNormalsDirty` bit vector. -/
structure TerrainFaceWriter where
  vbufPos : ℕ → V3
  vbufNrm : ℕ → V3
  sharedNormals : ℕ → V3
  fillNormalContrib : ℕ → V3
  contribs : List FanNormalContrib
  contribCapacity : ℕ
  sharedUsed : ℕ → ℕ
  selectedFaceNormal : V3
  selectedFaceIndx : ℕ × ℕ × ℕ
  faces : ℕ → ℕ × ℕ × ℕ
  currentFace : ℕ
  ibufSize : ℕ
  dirty : ℕ → Bool

namespace TerrainFaceWriter

/-- Method `TerrainFaceWriter::calculate_face_normal`:
`u = vbufPos[b] - vbufPos[a]; v = vbufPos[c] - vbufPos[a];
selectedFaceNormal = cross(u, v).normalized()`. -/
def calculate_face_normal (nrmz : V3 → V3) (a b c : ℕ) (s : TerrainFaceWriter) :
    TerrainFaceWriter :=
  let u := s.vbufPos b - s.vbufPos a
  let v := s.vbufPos c - s.vbufPos a
  { s with selectedFaceNormal := nrmz (cross u v) }

/-- Method `TerrainFaceWriter::fan_add_face`: computes the face normal, stores the
index triple at `currentFace` and advances the iterator. The source contains
no bounds check on the face-buffer span. -/
def fan_add_face (nrmz : V3 → V3) (a b c : ℕ) (s : TerrainFaceWriter) :
    TerrainFaceWriter :=
  let s1 := calculate_face_normal nrmz a b c s
  { s1 with
    selectedFaceIndx := (a, b, c)
    faces := fun i => if i = s1.currentFace then (a, b, c) else s1.faces i
    currentFace := s1.currentFace + 1 }

/-- Method `TerrainFaceWriter::fill_add_face`: delegates to `fan_add_face`. -/
def fill_add_face (nrmz : V3 → V3) (a b c : ℕ) (s : TerrainFaceWriter) :
    TerrainFaceWriter :=
  fan_add_face nrmz a b c s

/-- Method `TerrainFaceWriter::fill_add_normal_filled`:
`vbufNrm[vertex] += selectedFaceNormal`. -/
def fill_add_normal_filled (vertex : ℕ) (s : TerrainFaceWriter) :
    TerrainFaceWriter :=
  { s with
    vbufNrm := fun i =>
      if i = vertex then s.vbufNrm i + s.selectedFaceNormal else s.vbufNrm i }

/-- Method `TerrainFaceWriter::fill_add_normal_shared`: looks up the shared id via
`sharedUsed[local]`, accumulates into the fill contribution slot and the
global shared-normal array, and marks the shared vertex dirty. -/
def fill_add_normal_shared (vertex localId : ℕ) (s : TerrainFaceWriter) :
    TerrainFaceWriter :=
  let shared := s.sharedUsed localId
  { s with
    fillNormalContrib := fun i =>
      if i = localId then s.fillNormalContrib i + s.selectedFaceNormal
      else s.fillNormalContrib i
    sharedNormals := fun i =>
      if i = shared then s.sharedNormals i + s.selectedFaceNormal
      else s.sharedNormals i
    dirty := fun i => if i = shared then true else s.dirty i }

/-- Whether the record at index `i` of `l` (if any) is for shared vertex
`shared` — the predicate `matches` of `fan_add_normal_shared`. -/
def matchesAt (l : List FanNormalContrib) (shared i : ℕ) : Bool :=
  match l.get? i with
  | some r => r.shared == shared
  | none => false

/-- Search `std::find_if` over the index range `[lo, hi)` of `l`: index of the first
record for `shared`, if any. -/
def findMatchIn (l : List FanNormalContrib) (shared lo hi : ℕ) : Option ℕ :=
  (List.range' lo (hi - lo)).find? (matchesAt l shared)

/-- The two-window search of `fan_add_normal_shared`:
window A `[searchAFirst, searchALast) = [max(contribLast - 4, begin), contribLast)`
is tried first, then window B
`[searchBFirst, searchBLast) = [begin, min(begin + 4, searchAFirst))`.
Indices are relative to `fanNormalContrib.begin()`; ℕ subtraction performs
the `max` clamp of `searchAFirst`. -/
def searchWindows (l : List FanNormalContrib) (shared : ℕ) : Option ℕ :=
  match findMatchIn l shared (l.length - 4) l.length with
  | some i => some i
  | none => findMatchIn l shared 0 (min 4 (l.length - 4))

/-- Update `rContrib.sum += v` for the record at index `i`. -/
def addToNth (l : List FanNormalContrib) (i : ℕ) (v : V3) :
    List FanNormalContrib :=
  match l, i with
  | [], _ => []
  | r :: rs, 0 => { r with sum := r.sum + v } :: rs
  | r :: rs, n + 1 => r :: addToNth rs n v

/-- Method `TerrainFaceWriter::fan_add_normal_shared`. Adds the selected face normal
to `sharedNormals[shared]`, then finds (or appends) the chunk's contribution
record for `shared` with the bounded two-window search and adds the normal to
its sum. `none` models a fired `LGRN_ASSERT`: either the window search missed
a record that exists in the list, or appending made `contribLast` reach
`fanNormalContrib.end()`. -/
def fan_add_normal_shared (vertex shared : ℕ) (s : TerrainFaceWriter) :
    Option TerrainFaceWriter :=
  let s1 := { s with
    sharedNormals := fun i =>
      if i = shared then s.sharedNormals i + s.selectedFaceNormal
      else s.sharedNormals i }
  match searchWindows s1.contribs shared with
  | some i =>
      some { s1 with contribs := addToNth s1.contribs i s1.selectedFaceNormal }
  | none =>
      if s1.contribs.any (fun r => r.shared == shared) then
        none
      else
        let grown := s1.contribs ++ [⟨shared, 0⟩]
        if grown.length = s1.contribCapacity then
          none
        else
          some { s1 with
            contribs := addToNth grown (grown.length - 1) s1.selectedFaceNormal
            dirty := fun i => if i = shared then true else s1.dirty i }

/-- The dirty-set invariant maintained by one chunk build: every contribution
record already in the chunk's list has its shared vertex marked dirty. It
holds vacuously at the start of a build (empty list). -/
def dirtyInv (s : TerrainFaceWriter) : Prop :=
  ∀ r ∈ s.contribs, s.dirty r.shared = true

/-- Index `i` lies in search window A (last four records) or B (first four,
clamped below window A's start). -/
def inWindows (len i : ℕ) : Prop :=
  (len - 4 ≤ i ∧ i < len) ∨ i < min 4 (len - 4)

instance (len i : ℕ) : Decidable (inWindows len i) := by
  unfold inWindows
  infer_instance

/-- A writer freshly bound to an empty chunk region: no contribution records,
no dirty bits, face iterator at the start of the chunk's face-buffer span. -/
def emptyWriter : TerrainFaceWriter :=
  { vbufPos := fun _ => 0
    vbufNrm := fun _ => 0
    sharedNormals := fun _ => 0
    fillNormalContrib := fun _ => 0
    contribs := []
    contribCapacity := 64
    sharedUsed := fun i => i
    selectedFaceNormal := 0
    selectedFaceIndx := (0, 0, 0)
    faces := fun _ => (0, 0, 0)
    currentFace := 0
    ibufSize := 64
    dirty := fun _ => false }

/-- A writer mid-build holding one contribution record, for shared vertex 5. -/
def writerOneRec : TerrainFaceWriter :=
  { emptyWriter with
    contribs := [⟨5, 0⟩]
    selectedFaceNormal := ⟨1, 2, 3⟩ }

/-- A writer holding nine contribution records for shared vertices `0..8`:
just past the size at which the two search windows stop covering the list. -/
def writerNineRecs : TerrainFaceWriter :=
  { emptyWriter with
    contribs := [⟨0, 0⟩, ⟨1, 0⟩, ⟨2, 0⟩, ⟨3, 0⟩, ⟨4, 0⟩, ⟨5, 0⟩, ⟨6, 0⟩, ⟨7, 0⟩, ⟨8, 0⟩] }

/-- A writer whose face iterator already sits at the end of the caller-provided
face-buffer span (`currentFace = ibufSize`). -/
def writerFacesFull : TerrainFaceWriter :=
  { emptyWriter with
    currentFace := 2
    ibufSize := 2 }

/-- A writer holding one record, in a fan-contribution span of size 2: one more
append makes `contribLast` reach `fanNormalContrib.end()`. -/
def writerNearCap : TerrainFaceWriter :=
  { emptyWriter with
    contribs := [⟨1, 0⟩]
    contribCapacity := 2 }

/-- The fan ring scenario: face `i` of the ring is the triangle over ring
vertices `i` and `(i+1) % 8` and the apex vertex `8`; its face normal as
computed by `fan_add_face`. -/
def ringFaceNormal (nrmz : V3 → V3) (pos : ℕ → V3) (i : ℕ) : V3 :=
  nrmz (cross (pos ((i + 1) % 8) - pos i) (pos 8 - pos i))

/-- Emission of ring face `i`: `fan_add_face` followed by
`fan_add_normal_shared` for its two shared (ring) vertices, whose shared ids
equal their ring indices. -/
def fanRingStep (nrmz : V3 → V3) (i : ℕ) (s : TerrainFaceWriter) :
    Option TerrainFaceWriter :=
  let s1 := fan_add_face nrmz i ((i + 1) % 8) 8 s
  (fan_add_normal_shared i i s1).bind
    (fan_add_normal_shared ((i + 1) % 8) ((i + 1) % 8))

/-- Emitting the whole ring of 8 fan faces, in ring order, into a fresh
writer whose vertex positions are `pos`. -/
def fanRingRun (nrmz : V3 → V3) (pos : ℕ → V3) : Option TerrainFaceWriter :=
  (List.range 8).foldlM (fun s i => fanRingStep nrmz i s)
    { emptyWriter with vbufPos := pos }

end TerrainFaceWriter

/-- Modelled from the spec: `planeta::ChunkSkeleton` is declared in
`chunk_utils.h`, which is not among the given sources. `resize` reads only
its capacity fields: `m_chunkIds.capacity()` (maximum chunk count),
`m_sharedIds.capacity()` (maximum shared-vertex count) and
`m_chunkSharedCount` (per-chunk shared-slot count), per the spec's capacity
declarations. -/
structure ChunkSkeleton where
  chunkIdsCapacity : ℕ
  sharedIdsCapacity : ℕ
  chunkSharedCount : ℕ

/-- Modelled from the spec: `planeta::ChunkMeshBufferInfo` is declared in
`chunk_utils.h`, which is not among the given sources. `resize` reads only
its declared sizes: `vbufSize` (vertex-buffer size), `chunkMaxFaceCount`
(per-chunk maximum face count) and `fanMaxSharedCount` (per-chunk maximum
fan-contribution-record count). -/
structure ChunkMeshBufferInfo where
  vbufSize : ℕ
  chunkMaxFaceCount : ℕ
  fanMaxSharedCount : ℕ

/-- Store `planeta::BasicTerrainGeometry`: the geometry buffer store's
`std::vector` members. -/
structure BasicTerrainGeometry where
  chunkVbufPos : List V3
  chunkVbufNrm : List V3
  chunkIbuf : List (ℕ × ℕ × ℕ)
  chunkFanNormalContrib : List FanNormalContrib
  chunkFillSharedNormals : List V3
  sharedNormals : List V3

/-- Model of `std::vector::resize(n, dflt)`: keeps the first `min n size` elements and
value-initializes the rest with `dflt`. For the vectors resized without an
explicit value, `dflt` is the type's value-initialized state (Magnum vectors
and `FanNormalContrib` zero-initialize their components). -/
def vecResize {α : Type} (xs : List α) (n : ℕ) (dflt : α) : List α :=
  xs.take n ++ List.replicate (n - xs.length) dflt

/-- Method `BasicTerrainGeometry::resize(skCh, info)` from `geometry.cpp`, with
`maxChunks = skCh.m_chunkIds.capacity()` and
`maxSharedVrtx = skCh.m_sharedIds.capacity()`. -/
def BasicTerrainGeometry.resize (g : BasicTerrainGeometry)
    (skCh : ChunkSkeleton) (info : ChunkMeshBufferInfo) :
    BasicTerrainGeometry :=
  { chunkVbufPos := vecResize g.chunkVbufPos info.vbufSize 0
    chunkVbufNrm := vecResize g.chunkVbufNrm info.vbufSize 0
    chunkIbuf :=
      vecResize g.chunkIbuf (skCh.chunkIdsCapacity * info.chunkMaxFaceCount) (0, 0, 0)
    chunkFanNormalContrib :=
      vecResize g.chunkFanNormalContrib
        (skCh.chunkIdsCapacity * info.fanMaxSharedCount) ⟨0, 0⟩
    chunkFillSharedNormals :=
      vecResize g.chunkFillSharedNormals
        (skCh.chunkIdsCapacity * skCh.chunkSharedCount) 0
    sharedNormals := vecResize g.sharedNormals skCh.sharedIdsCapacity 0 }

/-- A small geometry store with some data already written, used to witness the
resize theorems. -/
def smallGeometry : BasicTerrainGeometry :=
  { chunkVbufPos := [⟨1, 2, 3⟩]
    chunkVbufNrm := [⟨4, 5, 6⟩]
    chunkIbuf := [(0, 1, 2)]
    chunkFanNormalContrib := [⟨3, ⟨7, 8, 9⟩⟩]
    chunkFillSharedNormals := [⟨1, 1, 1⟩]
    sharedNormals := [⟨2, 2, 2⟩] }

/-! ## Theorems -/

theorem V3.zero_add (v : V3) : (0 : V3) + v = v := by
  cases v with
  | mk a b c =>
    show V3.mk (0 + a) (0 + b) (0 + c) = V3.mk a b c
    simp

namespace TerrainFaceWriter

theorem matchesAt_iff (l : List FanNormalContrib) (shared i : ℕ) :
    matchesAt l shared i = true ↔ ∃ r, l.get? i = some r ∧ r.shared = shared := by
  unfold matchesAt
  cases h : l.get? i <;> simp

theorem matchesAt_of_get? (l : List FanNormalContrib) (shared i : ℕ)
    (r : FanNormalContrib) (hr : l.get? i = some r) (hs : r.shared = shared) :
    matchesAt l shared i = true :=
  (matchesAt_iff l shared i).2 ⟨r, hr, hs⟩

theorem findMatchIn_eq_none_iff (l : List FanNormalContrib) (shared lo hi : ℕ) :
    findMatchIn l shared lo hi = none ↔
      ∀ i, lo ≤ i → i < hi → matchesAt l shared i = false := by
  unfold findMatchIn
  rw [List.find?_eq_none]
  constructor
  · intro h i h1 h2
    have := h i (List.mem_range'_1.2 ⟨h1, by omega⟩)
    simpa using this
  · intro h i hmem
    have h' := List.mem_range'_1.1 hmem
    simp [h i h'.1 (by omega)]

theorem findMatchIn_some (l : List FanNormalContrib) (shared lo hi i : ℕ)
    (h : findMatchIn l shared lo hi = some i) :
    lo ≤ i ∧ i < hi ∧ matchesAt l shared i = true := by
  have h1 := List.find?_some h
  have h2 := List.mem_range'_1.1 (List.mem_of_find?_eq_some h)
  exact ⟨h2.1, by omega, h1⟩

theorem searchWindows_some (l : List FanNormalContrib) (shared i : ℕ)
    (h : searchWindows l shared = some i) :
    inWindows l.length i ∧ matchesAt l shared i = true := by
  unfold searchWindows at h
  cases hA : findMatchIn l shared (l.length - 4) l.length with
  | some j =>
    rw [hA] at h
    obtain ⟨h1, h2, h3⟩ := findMatchIn_some l shared _ _ j hA
    cases h
    exact ⟨Or.inl ⟨h1, h2⟩, h3⟩
  | none =>
    rw [hA] at h
    obtain ⟨_, h2, h3⟩ := findMatchIn_some l shared _ _ i h
    exact ⟨Or.inr (by omega), h3⟩

theorem searchWindows_none (l : List FanNormalContrib) (shared : ℕ)
    (h : searchWindows l shared = none) :
    ∀ i, inWindows l.length i → matchesAt l shared i = false := by
  unfold searchWindows at h
  cases hA : findMatchIn l shared (l.length - 4) l.length with
  | some j => rw [hA] at h; cases h
  | none =>
    rw [hA] at h
    intro i hi
    cases hi with
    | inl hA' => exact (findMatchIn_eq_none_iff l shared _ _).1 hA i hA'.1 hA'.2
    | inr hB => exact (findMatchIn_eq_none_iff l shared _ _).1 h i (Nat.zero_le i) hB

/-- For a list of at most 8 records the two windows jointly cover every index. -/
theorem inWindows_of_le_8 (len i : ℕ) (h8 : len ≤ 8) (hi : i < len) :
    inWindows len i := by
  unfold inWindows
  omega

theorem searchWindows_none_iff_of_le_8 (l : List FanNormalContrib) (shared : ℕ)
    (h8 : l.length ≤ 8) :
    searchWindows l shared = none ↔ ∀ r ∈ l, r.shared ≠ shared := by
  constructor
  · intro h r hr hs
    obtain ⟨n, hn⟩ := List.mem_iff_get?.1 hr
    have hlt : n < l.length := by
      rcases List.get?_eq_some.1 hn with ⟨hlt, _⟩
      exact hlt
    have := searchWindows_none l shared h n (inWindows_of_le_8 l.length n h8 hlt)
    rw [matchesAt_of_get? l shared n r hn hs] at this
    cases this
  · intro h
    unfold searchWindows
    have hnoA : findMatchIn l shared (l.length - 4) l.length = none := by
      rw [findMatchIn_eq_none_iff]
      intro i _ _
      cases hm : matchesAt l shared i with
      | false => rfl
      | true =>
        obtain ⟨r, hr, hs⟩ := (matchesAt_iff l shared i).1 hm
        exact absurd hs (h r (List.get?_mem hr))
    have hnoB : findMatchIn l shared 0 (min 4 (l.length - 4)) = none := by
      rw [findMatchIn_eq_none_iff]
      intro i _ _
      cases hm : matchesAt l shared i with
      | false => rfl
      | true =>
        obtain ⟨r, hr, hs⟩ := (matchesAt_iff l shared i).1 hm
        exact absurd hs (h r (List.get?_mem hr))
    rw [hnoA, hnoB]

theorem addToNth_length (l : List FanNormalContrib) (i : ℕ) (v : V3) :
    (addToNth l i v).length = l.length := by
  induction l generalizing i with
  | nil => rfl
  | cons r rs ih =>
    cases i with
    | zero => rfl
    | succ n => simpa [addToNth] using ih n

theorem addToNth_get?_ne (l : List FanNormalContrib) (i : ℕ) (v : V3)
    (j : ℕ) (h : j ≠ i) : (addToNth l i v).get? j = l.get? j := by
  induction l generalizing i j with
  | nil => rfl
  | cons r rs ih =>
    cases i with
    | zero =>
      cases j with
      | zero => exact absurd rfl h
      | succ m => rfl
    | succ n =>
      cases j with
      | zero => rfl
      | succ m => simpa [addToNth] using ih n m (by omega)

theorem addToNth_get?_eq (l : List FanNormalContrib) (i : ℕ) (v : V3)
    (r : FanNormalContrib) (h : l.get? i = some r) :
    (addToNth l i v).get? i = some ⟨r.shared, r.sum + v⟩ := by
  induction l generalizing i with
  | nil => cases i <;> cases h
  | cons x xs ih =>
    cases i with
    | zero =>
      cases h
      rfl
    | succ n => simpa [addToNth] using ih n h

theorem addToNth_mem_shared (l : List FanNormalContrib) (i : ℕ) (v : V3) :
    ∀ r' ∈ addToNth l i v, ∃ r ∈ l, r'.shared = r.shared := by
  induction l generalizing i with
  | nil => intro r' h; cases h
  | cons x xs ih =>
    cases i with
    | zero =>
      intro r' h
      cases h with
      | head => exact ⟨x, List.mem_cons_self x xs, rfl⟩
      | tail _ hmem => exact ⟨r', List.mem_cons_of_mem x hmem, rfl⟩
    | succ n =>
      intro r' h
      cases h with
      | head => exact ⟨x, List.mem_cons_self x xs, rfl⟩
      | tail _ hmem =>
        obtain ⟨r, hr, hs⟩ := ih n r' hmem
        exact ⟨r, List.mem_cons_of_mem x hr, hs⟩

theorem addToNth_append_last (l : List FanNormalContrib) (x : FanNormalContrib)
    (v : V3) :
    addToNth (l ++ [x]) ((l ++ [x]).length - 1) v = l ++ [⟨x.shared, x.sum + v⟩] := by
  induction l with
  | nil => rfl
  | cons r rs ih =>
    have h2 : (rs ++ [x]).length - 1 = rs.length := by simp
    rw [h2] at ih
    have h3 : ((r :: rs ++ [x]).length - 1) = rs.length + 1 := by simp
    rw [h3]
    show r :: addToNth (rs ++ [x]) rs.length v = _
    rw [ih]
    rfl

end TerrainFaceWriter

theorem vecResize_length {α : Type} (xs : List α) (n : ℕ) (dflt : α) :
    (vecResize xs n dflt).length = n := by
  simp [vecResize]
  omega

theorem vecResize_get?_preserved {α : Type} (xs : List α) (n : ℕ) (dflt : α)
    (i : ℕ) (hi : i < xs.length) (hn : xs.length ≤ n) :
    (vecResize xs n dflt).get? i = xs.get? i := by
  unfold vecResize
  rw [List.get?_append]
  · simp [List.get?_eq_getElem?, List.getElem?_take]
    omega
  · simp
    omega

theorem vecResize_get?_new {α : Type} (xs : List α) (n : ℕ) (dflt : α)
    (i : ℕ) (hi : xs.length ≤ i) (hn : i < n) :
    (vecResize xs n dflt).get? i = some dflt := by
  unfold vecResize
  rw [List.get?_append_right]
  · simp only [List.get?_eq_getElem?, List.getElem?_replicate]
    rw [if_pos]
    simp
    omega
  · simp
    omega

/-! ## Claim theorems -/

namespace TerrainFaceWriter

/-- C3: for every face emission (fill or fan) of triangle `(a, b, c)`, the
face normal used for all subsequent normal accumulation equals the normalized
cross product of `(p_b − p_a)` and `(p_c − p_a)`, the positions taken from the
bound position buffer (`nrmz` abstracts Magnum's float `.normalized()`); a
subsequent accumulation call adds exactly this value. -/
theorem face_normal_is_normalized_cross (nrmz : V3 → V3) (a b c vertex : ℕ)
    (s : TerrainFaceWriter) :
    (fan_add_face nrmz a b c s).selectedFaceNormal
        = nrmz (cross (s.vbufPos b - s.vbufPos a) (s.vbufPos c - s.vbufPos a))
    ∧ (fill_add_face nrmz a b c s).selectedFaceNormal
        = nrmz (cross (s.vbufPos b - s.vbufPos a) (s.vbufPos c - s.vbufPos a))
    ∧ (fill_add_normal_filled vertex (fan_add_face nrmz a b c s)).vbufNrm vertex
        = (fan_add_face nrmz a b c s).vbufNrm vertex
          + nrmz (cross (s.vbufPos b - s.vbufPos a) (s.vbufPos c - s.vbufPos a)) := by
  refine ⟨rfl, rfl, ?_⟩
  simp [fill_add_normal_filled, fan_add_face, calculate_face_normal]

/-- C9: method `fill_add_face` is behaviorally identical to `fan_add_face`: it is the
same state transformer, which computes the face normal of `(a, b, c)`, writes
the index triple to the current face-buffer slot and advances the face
iterator by one. -/
theorem fill_add_face_eq_fan_add_face (nrmz : V3 → V3) (a b c : ℕ)
    (s : TerrainFaceWriter) :
    fill_add_face nrmz a b c s = fan_add_face nrmz a b c s
    ∧ (fan_add_face nrmz a b c s).faces s.currentFace = (a, b, c)
    ∧ (fan_add_face nrmz a b c s).selectedFaceIndx = (a, b, c)
    ∧ (fan_add_face nrmz a b c s).currentFace = s.currentFace + 1
    ∧ (fan_add_face nrmz a b c s).selectedFaceNormal
        = nrmz (cross (s.vbufPos b - s.vbufPos a) (s.vbufPos c - s.vbufPos a)) := by
  refine ⟨rfl, ?_, rfl, rfl, rfl⟩
  simp [fan_add_face, calculate_face_normal]

/-- C5 counterexample: with the face iterator already at the end of the
caller-provided face-buffer span, `fan_add_face` raises no assertion at all;
it silently writes the index triple past the span and advances the iterator.
-/
theorem fan_add_face_past_span_no_assert :
    writerFacesFull.currentFace = writerFacesFull.ibufSize
    ∧ (fan_add_face (fun v => v) 0 1 2 writerFacesFull).currentFace
        = writerFacesFull.ibufSize + 1
    ∧ (fan_add_face (fun v => v) 0 1 2 writerFacesFull).faces
        writerFacesFull.ibufSize = (0, 1, 2) := by
  refine ⟨rfl, rfl, ?_⟩
  simp [fan_add_face, calculate_face_normal, writerFacesFull, emptyWriter]

/-- C5 (amended): `fan_add_face`/`fill_add_face` perform no bounds check on
the face-buffer span — they write and advance unconditionally; the fatal
capacity assertion lives in `fan_add_normal_shared`, which fails when
appending a contribution record makes `contribLast` reach the end of the
fan-contribution span. -/
theorem fan_contribution_capacity_assert (s : TerrainFaceWriter)
    (vertex shared : ℕ)
    (hnone : searchWindows s.contribs shared = none)
    (hcap : s.contribs.length + 1 = s.contribCapacity) :
    fan_add_normal_shared vertex shared s = none
    ∧ ∀ (nrmz : V3 → V3) (a b c : ℕ) (t : TerrainFaceWriter),
        (fan_add_face nrmz a b c t).currentFace = t.currentFace + 1 := by
  refine ⟨?_, fun _ _ _ _ _ => rfl⟩
  simp only [fan_add_normal_shared, hnone]
  cases hany : s.contribs.any (fun r => r.shared == shared) with
  | true => simp [hany]
  | false => simp [hany, hcap]

/-- C5 (amended) witness: on a writer one record short of its fan-contribution
span, appending fires the assertion, while `fan_add_face` still advances
unconditionally. -/
theorem fan_contribution_capacity_assert_witness :
    fan_add_normal_shared 0 7 writerNearCap = none
    ∧ (fan_add_face (fun v => v) 0 1 2 writerNearCap).currentFace
        = writerNearCap.currentFace + 1 := by
  have h := fan_contribution_capacity_assert writerNearCap 0 7 rfl rfl
  exact ⟨h.1, h.2 (fun v => v) 0 1 2 writerNearCap⟩

/-- When the window search finds index `i`, `fan_add_normal_shared` merges the
face normal into the record at `i` and leaves the rest of the build state (up
to the shared-normal bump) unchanged. -/
theorem fan_merge (s : TerrainFaceWriter) (vertex shared i : ℕ)
    (hsw : searchWindows s.contribs shared = some i) :
    ∃ s', fan_add_normal_shared vertex shared s = some s'
      ∧ s'.contribs = addToNth s.contribs i s.selectedFaceNormal
      ∧ s'.selectedFaceNormal = s.selectedFaceNormal
      ∧ s'.vbufPos = s.vbufPos
      ∧ s'.contribCapacity = s.contribCapacity := by
  obtain ⟨s', hs'⟩ : ∃ x, fan_add_normal_shared vertex shared s = some x := by
    simp only [fan_add_normal_shared, hsw]
    exact ⟨_, rfl⟩
  have heq := hs'
  simp only [fan_add_normal_shared, hsw] at heq
  have hXs : _ = s' := Option.some.inj heq
  subst hXs
  exact ⟨_, hs', rfl, rfl, rfl, rfl⟩

/-- When the window search finds nothing, no record matches anywhere and the
span is not about to fill up, `fan_add_normal_shared` appends a fresh record
holding exactly the selected face normal. -/
theorem fan_append (s : TerrainFaceWriter) (vertex shared : ℕ)
    (hsw : searchWindows s.contribs shared = none)
    (hnomatch : ∀ r ∈ s.contribs, r.shared ≠ shared)
    (hcap : s.contribs.length + 1 ≠ s.contribCapacity) :
    ∃ s', fan_add_normal_shared vertex shared s = some s'
      ∧ s'.contribs = s.contribs ++ [⟨shared, s.selectedFaceNormal⟩]
      ∧ s'.selectedFaceNormal = s.selectedFaceNormal
      ∧ s'.vbufPos = s.vbufPos
      ∧ s'.contribCapacity = s.contribCapacity := by
  have hany : s.contribs.any (fun r => r.shared == shared) = false := by
    rw [List.any_eq_false]
    intro r hr
    simp [hnomatch r hr]
  have hlen : (s.contribs ++ [(⟨shared, 0⟩ : FanNormalContrib)]).length
      = s.contribs.length + 1 := by simp
  obtain ⟨s', hs'⟩ : ∃ s', fan_add_normal_shared vertex shared s = some s' := by
    simp only [fan_add_normal_shared, hsw, hany]
    rw [if_neg Bool.false_ne_true, if_neg (by rw [hlen]; exact hcap)]
    exact ⟨_, rfl⟩
  have heq := hs'
  simp only [fan_add_normal_shared, hsw, hany] at heq
  rw [if_neg Bool.false_ne_true, if_neg (by rw [hlen]; exact hcap)] at heq
  have hXs : _ = s' := Option.some.inj heq
  subst hXs
  refine ⟨_, hs', ?_, rfl, rfl, rfl⟩
  show addToNth (s.contribs ++ [⟨shared, 0⟩])
      ((s.contribs ++ [(⟨shared, 0⟩ : FanNormalContrib)]).length - 1)
      s.selectedFaceNormal
    = s.contribs ++ [⟨shared, s.selectedFaceNormal⟩]
  rw [addToNth_append_last]
  rw [show ((⟨shared, 0⟩ : FanNormalContrib).sum + s.selectedFaceNormal)
        = s.selectedFaceNormal from V3.zero_add _]

/-- Ring face 0 on a fresh chunk: both shared vertices 0 and 1 get fresh
records holding face 0's normal. -/
theorem fanRingStep_first (nrmz : V3 → V3) (pos : ℕ → V3)
    (s : TerrainFaceWriter) (hc : s.contribs = []) (hpos : s.vbufPos = pos)
    (hcap : s.contribCapacity = 64) :
    ∃ s', fanRingStep nrmz 0 s = some s'
      ∧ s'.contribs = [⟨0, ringFaceNormal nrmz pos 0⟩, ⟨1, ringFaceNormal nrmz pos 0⟩]
      ∧ s'.vbufPos = pos
      ∧ s'.contribCapacity = 64 := by
  have hct : (fan_add_face nrmz 0 ((0 + 1) % 8) 8 s).contribs = [] := hc
  have hselt : (fan_add_face nrmz 0 ((0 + 1) % 8) 8 s).selectedFaceNormal
      = ringFaceNormal nrmz pos 0 := by
    show nrmz (cross (s.vbufPos ((0 + 1) % 8) - s.vbufPos 0)
        (s.vbufPos 8 - s.vbufPos 0)) = _
    rw [hpos]
    rfl
  obtain ⟨u, hu, hcu, hselu, hposu, hcapu⟩ :=
    fan_append (fan_add_face nrmz 0 ((0 + 1) % 8) 8 s) 0 0
      (by rw [hct]; rfl) (by rw [hct]; simp) (by rw [hct, show (fan_add_face nrmz 0 ((0 + 1) % 8) 8 s).contribCapacity = 64 from hcap]; decide)
  rw [hct, hselt] at hcu
  rw [hselt] at hselu
  have hposu' : u.vbufPos = pos := by rw [hposu]; exact hpos
  have hcapu' : u.contribCapacity = 64 := by rw [hcapu]; exact hcap
  simp only [List.nil_append] at hcu
  obtain ⟨w, hw, hcw, hselw, hposw, hcapw⟩ :=
    fan_append u 1 1
      (by rw [hcu]; rfl) (by rw [hcu]; simp) (by rw [hcu, hcapu']; simp)
  rw [hcu, hselu] at hcw
  refine ⟨w, ?_, ?_, by rw [hposw]; exact hposu', by rw [hcapw]; exact hcapu'⟩
  · show (fan_add_normal_shared 0 0 (fan_add_face nrmz 0 ((0 + 1) % 8) 8 s)).bind
        (fan_add_normal_shared ((0 + 1) % 8) ((0 + 1) % 8)) = some w
    rw [hu]
    exact hw
  · rw [hcw]
    rfl

/-- Ring faces 1 through 6: the shared vertex `k` already has a record (from
face `k − 1`) found by search window A; shared vertex `k + 1` is fresh. -/
theorem fanRingStep_mid (nrmz : V3 → V3) (pos : ℕ → V3) (k : ℕ)
    (s : TerrainFaceWriter) (L : List FanNormalContrib)
    (hk : k + 1 < 8)
    (hc : s.contribs = L) (hpos : s.vbufPos = pos) (hcap : s.contribCapacity = 64)
    (hsw1 : searchWindows L k = some k)
    (hsw2 : searchWindows (addToNth L k (ringFaceNormal nrmz pos k)) (k + 1) = none)
    (hnm2 : ∀ r ∈ addToNth L k (ringFaceNormal nrmz pos k), r.shared ≠ k + 1)
    (hlen2 : (addToNth L k (ringFaceNormal nrmz pos k)).length + 1 ≠ 64) :
    ∃ s', fanRingStep nrmz k s = some s'
      ∧ s'.contribs = addToNth L k (ringFaceNormal nrmz pos k)
          ++ [⟨k + 1, ringFaceNormal nrmz pos k⟩]
      ∧ s'.vbufPos = pos
      ∧ s'.contribCapacity = 64 := by
  have hk8 : (k + 1) % 8 = k + 1 := Nat.mod_eq_of_lt hk
  have hct : (fan_add_face nrmz k ((k + 1) % 8) 8 s).contribs = L := hc
  have hselt : (fan_add_face nrmz k ((k + 1) % 8) 8 s).selectedFaceNormal
      = ringFaceNormal nrmz pos k := by
    show nrmz (cross (s.vbufPos ((k + 1) % 8) - s.vbufPos k)
        (s.vbufPos 8 - s.vbufPos k)) = _
    rw [hpos]
    rfl
  obtain ⟨u, hu, hcu, hselu, hposu, hcapu⟩ :=
    fan_merge (fan_add_face nrmz k ((k + 1) % 8) 8 s) k k k
      (by rw [hct]; exact hsw1)
  rw [hct, hselt] at hcu
  rw [hselt] at hselu
  have hposu' : u.vbufPos = pos := by rw [hposu]; exact hpos
  have hcapu' : u.contribCapacity = 64 := by rw [hcapu]; exact hcap
  obtain ⟨w, hw, hcw, hselw, hposw, hcapw⟩ :=
    fan_append u (k + 1) (k + 1)
      (by rw [hcu]; exact hsw2) (by rw [hcu]; exact hnm2)
      (by rw [hcu, hcapu']; exact hlen2)
  rw [hcu, hselu] at hcw
  refine ⟨w, ?_, hcw, by rw [hposw]; exact hposu', by rw [hcapw]; exact hcapu'⟩
  show (fan_add_normal_shared k k (fan_add_face nrmz k ((k + 1) % 8) 8 s)).bind
      (fan_add_normal_shared ((k + 1) % 8) ((k + 1) % 8)) = some w
  rw [hu, hk8]
  exact hw

/-- Ring face 7, the wrap-around face: shared vertex 7's record is found in
search window A, and shared vertex 0's record — created by face 0, at index 0
— is found through search window B. -/
theorem fanRingStep_last (nrmz : V3 → V3) (pos : ℕ → V3)
    (s : TerrainFaceWriter) (L : List FanNormalContrib)
    (hc : s.contribs = L) (hpos : s.vbufPos = pos) (hcap : s.contribCapacity = 64)
    (hsw1 : searchWindows L 7 = some 7)
    (hsw2 : searchWindows (addToNth L 7 (ringFaceNormal nrmz pos 7)) 0 = some 0) :
    ∃ s', fanRingStep nrmz 7 s = some s'
      ∧ s'.contribs = addToNth (addToNth L 7 (ringFaceNormal nrmz pos 7)) 0
          (ringFaceNormal nrmz pos 7)
      ∧ s'.vbufPos = pos
      ∧ s'.contribCapacity = 64 := by
  have hct : (fan_add_face nrmz 7 ((7 + 1) % 8) 8 s).contribs = L := hc
  have hselt : (fan_add_face nrmz 7 ((7 + 1) % 8) 8 s).selectedFaceNormal
      = ringFaceNormal nrmz pos 7 := by
    show nrmz (cross (s.vbufPos ((7 + 1) % 8) - s.vbufPos 7)
        (s.vbufPos 8 - s.vbufPos 7)) = _
    rw [hpos]
    rfl
  obtain ⟨u, hu, hcu, hselu, hposu, hcapu⟩ :=
    fan_merge (fan_add_face nrmz 7 ((7 + 1) % 8) 8 s) 7 7 7
      (by rw [hct]; exact hsw1)
  rw [hct, hselt] at hcu
  rw [hselt] at hselu
  have hposu' : u.vbufPos = pos := by rw [hposu]; exact hpos
  have hcapu' : u.contribCapacity = 64 := by rw [hcapu]; exact hcap
  obtain ⟨w, hw, hcw, hselw, hposw, hcapw⟩ :=
    fan_merge u 0 0 0 (by rw [hcu]; exact hsw2)
  rw [hcu, hselu] at hcw
  refine ⟨w, ?_, hcw, by rw [hposw]; exact hposu', by rw [hcapw]; exact hcapu'⟩
  show (fan_add_normal_shared 7 7 (fan_add_face nrmz 7 ((7 + 1) % 8) 8 s)).bind
      (fan_add_normal_shared ((7 + 1) % 8) ((7 + 1) % 8)) = some w
  rw [hu]
  exact hw

/-- C1: emitting a fan ring of 8 faces over 8 shared vertices in ring order,
where face 0 and face 7 both touch shared vertex 0, leaves exactly one
contribution record for shared vertex 0, whose sum is exactly the sum of
those two faces' normals: the wrap-around face finds the record created by
the first face through search window B — no duplicate record, no missed
accumulation.  The final list holds one record per ring vertex. -/
theorem fan_ring_wraparound (nrmz : V3 → V3) (pos : ℕ → V3) :
    (fanRingRun nrmz pos).map
        (fun s => (s.contribs.filter (fun r => r.shared == 0), s.contribs.length))
      = some ([⟨0, ringFaceNormal nrmz pos 0 + ringFaceNormal nrmz pos 7⟩], 8) := by
  obtain ⟨f, hf⟩ : ∃ g : ℕ → V3, g = ringFaceNormal nrmz pos := ⟨_, rfl⟩
  have h0 : fanRingRun nrmz pos
      = [0, 1, 2, 3, 4, 5, 6, 7].foldlM (fun s i => fanRingStep nrmz i s)
          { emptyWriter with vbufPos := pos } := rfl
  -- face 0: fresh records for shared vertices 0 and 1
  obtain ⟨st1, hstep1, hc1, hpos1, hcap1⟩ :=
    fanRingStep_first nrmz pos { emptyWriter with vbufPos := pos } rfl rfl rfl
  rw [← hf] at hc1
  have h1 : fanRingRun nrmz pos
      = [1, 2, 3, 4, 5, 6, 7].foldlM (fun s i => fanRingStep nrmz i s) st1 := by
    rw [h0]
    show (fanRingStep nrmz 0 { emptyWriter with vbufPos := pos }) >>=
        (fun s => [1, 2, 3, 4, 5, 6, 7].foldlM (fun s i => fanRingStep nrmz i s) s)
      = _
    rw [hstep1]
    rfl
  -- face 1
  have m2 : addToNth [⟨0, f 0⟩, ⟨1, f 0⟩] 1 (f 1)
      = [⟨0, f 0⟩, ⟨1, f 0 + f 1⟩] := rfl
  obtain ⟨st2, hstep2, hc2, hpos2, hcap2⟩ :=
    fanRingStep_mid nrmz pos 1 st1 [⟨0, f 0⟩, ⟨1, f 0⟩] (by omega) hc1 hpos1 hcap1
      rfl (by rw [← hf]; rfl) (by rw [← hf, m2]; simp) (by rw [← hf, m2]; simp)
  have e2 : ([⟨0, f 0⟩, ⟨1, f 0 + f 1⟩] : List FanNormalContrib) ++ [⟨1 + 1, f 1⟩]
      = [⟨0, f 0⟩, ⟨1, f 0 + f 1⟩, ⟨2, f 1⟩] := rfl
  rw [← hf, m2, e2] at hc2
  have h2 : fanRingRun nrmz pos
      = [2, 3, 4, 5, 6, 7].foldlM (fun s i => fanRingStep nrmz i s) st2 := by
    rw [h1]
    show (fanRingStep nrmz 1 st1) >>=
        (fun s => [2, 3, 4, 5, 6, 7].foldlM (fun s i => fanRingStep nrmz i s) s) = _
    rw [hstep2]
    rfl
  -- face 2
  have m3 : addToNth [⟨0, f 0⟩, ⟨1, f 0 + f 1⟩, ⟨2, f 1⟩] 2 (f 2)
      = [⟨0, f 0⟩, ⟨1, f 0 + f 1⟩, ⟨2, f 1 + f 2⟩] := rfl
  obtain ⟨st3, hstep3, hc3, hpos3, hcap3⟩ :=
    fanRingStep_mid nrmz pos 2 st2 [⟨0, f 0⟩, ⟨1, f 0 + f 1⟩, ⟨2, f 1⟩] (by omega) hc2 hpos2 hcap2
      rfl (by rw [← hf]; rfl) (by rw [← hf, m3]; simp) (by rw [← hf, m3]; simp)
  have e3 : ([⟨0, f 0⟩, ⟨1, f 0 + f 1⟩, ⟨2, f 1 + f 2⟩] : List FanNormalContrib) ++ [⟨2 + 1, f 2⟩]
      = [⟨0, f 0⟩, ⟨1, f 0 + f 1⟩, ⟨2, f 1 + f 2⟩, ⟨3, f 2⟩] := rfl
  rw [← hf, m3, e3] at hc3
  have h3 : fanRingRun nrmz pos
      = [3, 4, 5, 6, 7].foldlM (fun s i => fanRingStep nrmz i s) st3 := by
    rw [h2]
    show (fanRingStep nrmz 2 st2) >>=
        (fun s => [3, 4, 5, 6, 7].foldlM (fun s i => fanRingStep nrmz i s) s) = _
    rw [hstep3]
    rfl
  -- face 3
  have m4 : addToNth [⟨0, f 0⟩, ⟨1, f 0 + f 1⟩, ⟨2, f 1 + f 2⟩, ⟨3, f 2⟩] 3 (f 3)
      = [⟨0, f 0⟩, ⟨1, f 0 + f 1⟩, ⟨2, f 1 + f 2⟩, ⟨3, f 2 + f 3⟩] := rfl
  obtain ⟨st4, hstep4, hc4, hpos4, hcap4⟩ :=
    fanRingStep_mid nrmz pos 3 st3 [⟨0, f 0⟩, ⟨1, f 0 + f 1⟩, ⟨2, f 1 + f 2⟩, ⟨3, f 2⟩] (by omega) hc3 hpos3 hcap3
      rfl (by rw [← hf]; rfl) (by rw [← hf, m4]; simp) (by rw [← hf, m4]; simp)
  have e4 : ([⟨0, f 0⟩, ⟨1, f 0 + f 1⟩, ⟨2, f 1 + f 2⟩, ⟨3, f 2 + f 3⟩] : List FanNormalContrib) ++ [⟨3 + 1, f 3⟩]
      = [⟨0, f 0⟩, ⟨1, f 0 + f 1⟩, ⟨2, f 1 + f 2⟩, ⟨3, f 2 + f 3⟩, ⟨4, f 3⟩] := rfl
  rw [← hf, m4, e4] at hc4
  have h4 : fanRingRun nrmz pos
      = [4, 5, 6, 7].foldlM (fun s i => fanRingStep nrmz i s) st4 := by
    rw [h3]
    show (fanRingStep nrmz 3 st3) >>=
        (fun s => [4, 5, 6, 7].foldlM (fun s i => fanRingStep nrmz i s) s) = _
    rw [hstep4]
    rfl
  -- face 4
  have m5 : addToNth [⟨0, f 0⟩, ⟨1, f 0 + f 1⟩, ⟨2, f 1 + f 2⟩, ⟨3, f 2 + f 3⟩, ⟨4, f 3⟩] 4 (f 4)
      = [⟨0, f 0⟩, ⟨1, f 0 + f 1⟩, ⟨2, f 1 + f 2⟩, ⟨3, f 2 + f 3⟩, ⟨4, f 3 + f 4⟩] := rfl
  obtain ⟨st5, hstep5, hc5, hpos5, hcap5⟩ :=
    fanRingStep_mid nrmz pos 4 st4 [⟨0, f 0⟩, ⟨1, f 0 + f 1⟩, ⟨2, f 1 + f 2⟩, ⟨3, f 2 + f 3⟩, ⟨4, f 3⟩] (by omega) hc4 hpos4 hcap4
      rfl (by rw [← hf]; rfl) (by rw [← hf, m5]; simp) (by rw [← hf, m5]; simp)
  have e5 : ([⟨0, f 0⟩, ⟨1, f 0 + f 1⟩, ⟨2, f 1 + f 2⟩, ⟨3, f 2 + f 3⟩, ⟨4, f 3 + f 4⟩] : List FanNormalContrib) ++ [⟨4 + 1, f 4⟩]
      = [⟨0, f 0⟩, ⟨1, f 0 + f 1⟩, ⟨2, f 1 + f 2⟩, ⟨3, f 2 + f 3⟩, ⟨4, f 3 + f 4⟩, ⟨5, f 4⟩] := rfl
  rw [← hf, m5, e5] at hc5
  have h5 : fanRingRun nrmz pos
      = [5, 6, 7].foldlM (fun s i => fanRingStep nrmz i s) st5 := by
    rw [h4]
    show (fanRingStep nrmz 4 st4) >>=
        (fun s => [5, 6, 7].foldlM (fun s i => fanRingStep nrmz i s) s) = _
    rw [hstep5]
    rfl
  -- face 5
  have m6 : addToNth [⟨0, f 0⟩, ⟨1, f 0 + f 1⟩, ⟨2, f 1 + f 2⟩, ⟨3, f 2 + f 3⟩, ⟨4, f 3 + f 4⟩, ⟨5, f 4⟩] 5 (f 5)
      = [⟨0, f 0⟩, ⟨1, f 0 + f 1⟩, ⟨2, f 1 + f 2⟩, ⟨3, f 2 + f 3⟩, ⟨4, f 3 + f 4⟩, ⟨5, f 4 + f 5⟩] := rfl
  obtain ⟨st6, hstep6, hc6, hpos6, hcap6⟩ :=
    fanRingStep_mid nrmz pos 5 st5 [⟨0, f 0⟩, ⟨1, f 0 + f 1⟩, ⟨2, f 1 + f 2⟩, ⟨3, f 2 + f 3⟩, ⟨4, f 3 + f 4⟩, ⟨5, f 4⟩] (by omega) hc5 hpos5 hcap5
      rfl (by rw [← hf]; rfl) (by rw [← hf, m6]; simp) (by rw [← hf, m6]; simp)
  have e6 : ([⟨0, f 0⟩, ⟨1, f 0 + f 1⟩, ⟨2, f 1 + f 2⟩, ⟨3, f 2 + f 3⟩, ⟨4, f 3 + f 4⟩, ⟨5, f 4 + f 5⟩] : List FanNormalContrib) ++ [⟨5 + 1, f 5⟩]
      = [⟨0, f 0⟩, ⟨1, f 0 + f 1⟩, ⟨2, f 1 + f 2⟩, ⟨3, f 2 + f 3⟩, ⟨4, f 3 + f 4⟩, ⟨5, f 4 + f 5⟩, ⟨6, f 5⟩] := rfl
  rw [← hf, m6, e6] at hc6
  have h6 : fanRingRun nrmz pos
      = [6, 7].foldlM (fun s i => fanRingStep nrmz i s) st6 := by
    rw [h5]
    show (fanRingStep nrmz 5 st5) >>=
        (fun s => [6, 7].foldlM (fun s i => fanRingStep nrmz i s) s) = _
    rw [hstep6]
    rfl
  -- face 6
  have m7 : addToNth [⟨0, f 0⟩, ⟨1, f 0 + f 1⟩, ⟨2, f 1 + f 2⟩, ⟨3, f 2 + f 3⟩, ⟨4, f 3 + f 4⟩, ⟨5, f 4 + f 5⟩, ⟨6, f 5⟩] 6 (f 6)
      = [⟨0, f 0⟩, ⟨1, f 0 + f 1⟩, ⟨2, f 1 + f 2⟩, ⟨3, f 2 + f 3⟩, ⟨4, f 3 + f 4⟩, ⟨5, f 4 + f 5⟩, ⟨6, f 5 + f 6⟩] := rfl
  obtain ⟨st7, hstep7, hc7, hpos7, hcap7⟩ :=
    fanRingStep_mid nrmz pos 6 st6 [⟨0, f 0⟩, ⟨1, f 0 + f 1⟩, ⟨2, f 1 + f 2⟩, ⟨3, f 2 + f 3⟩, ⟨4, f 3 + f 4⟩, ⟨5, f 4 + f 5⟩, ⟨6, f 5⟩] (by omega) hc6 hpos6 hcap6
      rfl (by rw [← hf]; rfl) (by rw [← hf, m7]; simp) (by rw [← hf, m7]; simp)
  have e7 : ([⟨0, f 0⟩, ⟨1, f 0 + f 1⟩, ⟨2, f 1 + f 2⟩, ⟨3, f 2 + f 3⟩, ⟨4, f 3 + f 4⟩, ⟨5, f 4 + f 5⟩, ⟨6, f 5 + f 6⟩] : List FanNormalContrib) ++ [⟨6 + 1, f 6⟩]
      = [⟨0, f 0⟩, ⟨1, f 0 + f 1⟩, ⟨2, f 1 + f 2⟩, ⟨3, f 2 + f 3⟩, ⟨4, f 3 + f 4⟩, ⟨5, f 4 + f 5⟩, ⟨6, f 5 + f 6⟩, ⟨7, f 6⟩] := rfl
  rw [← hf, m7, e7] at hc7
  have h7 : fanRingRun nrmz pos
      = [7].foldlM (fun s i => fanRingStep nrmz i s) st7 := by
    rw [h6]
    show (fanRingStep nrmz 6 st6) >>=
        (fun s => [7].foldlM (fun s i => fanRingStep nrmz i s) s) = _
    rw [hstep7]
    rfl
  -- face 7: the wrap-around face merges into records 7 and 0
  have m8a : addToNth [⟨0, f 0⟩, ⟨1, f 0 + f 1⟩, ⟨2, f 1 + f 2⟩, ⟨3, f 2 + f 3⟩, ⟨4, f 3 + f 4⟩, ⟨5, f 4 + f 5⟩, ⟨6, f 5 + f 6⟩, ⟨7, f 6⟩] 7 (f 7)
      = [⟨0, f 0⟩, ⟨1, f 0 + f 1⟩, ⟨2, f 1 + f 2⟩, ⟨3, f 2 + f 3⟩, ⟨4, f 3 + f 4⟩, ⟨5, f 4 + f 5⟩, ⟨6, f 5 + f 6⟩, ⟨7, f 6 + f 7⟩] := rfl
  have m8b : addToNth [⟨0, f 0⟩, ⟨1, f 0 + f 1⟩, ⟨2, f 1 + f 2⟩, ⟨3, f 2 + f 3⟩, ⟨4, f 3 + f 4⟩, ⟨5, f 4 + f 5⟩, ⟨6, f 5 + f 6⟩, ⟨7, f 6 + f 7⟩] 0 (f 7)
      = [⟨0, f 0 + f 7⟩, ⟨1, f 0 + f 1⟩, ⟨2, f 1 + f 2⟩, ⟨3, f 2 + f 3⟩, ⟨4, f 3 + f 4⟩, ⟨5, f 4 + f 5⟩, ⟨6, f 5 + f 6⟩, ⟨7, f 6 + f 7⟩] := rfl
  obtain ⟨st8, hstep8, hc8, hpos8, hcap8⟩ :=
    fanRingStep_last nrmz pos st7 [⟨0, f 0⟩, ⟨1, f 0 + f 1⟩, ⟨2, f 1 + f 2⟩, ⟨3, f 2 + f 3⟩, ⟨4, f 3 + f 4⟩, ⟨5, f 4 + f 5⟩, ⟨6, f 5 + f 6⟩, ⟨7, f 6⟩]
      hc7 hpos7 hcap7 rfl (by rw [← hf, m8a]; rfl)
  rw [← hf, m8a, m8b] at hc8
  have h8 : fanRingRun nrmz pos = some st8 := by
    rw [h7]
    show (fanRingStep nrmz 7 st7) >>=
        (fun s => ([] : List ℕ).foldlM (fun s i => fanRingStep nrmz i s) s) = _
    rw [hstep8]
    rfl
  rw [h8]
  show some (st8.contribs.filter (fun r => r.shared == 0), st8.contribs.length) = _
  rw [hc8, hf]
  rfl

/-- C2: the method `fan_add_normal_shared` searches only two windows — the last 4
records appended, `[len − 4, len)`, and the first 4 records `[0, min 4 (len − 4))`,
the second clamped below the first so they never overlap.  Any found index
lies in a window and holds a record for the shared vertex; a `none` result
means no window index matches.  If a record is found its sum is increased by
the current face normal (all other records untouched); if none is found a new
record for the shared vertex is appended with its sum initialized to the face
normal. -/
theorem fan_add_normal_shared_two_window_search (s : TerrainFaceWriter)
    (vertex shared : ℕ) :
    (min 4 (s.contribs.length - 4) ≤ s.contribs.length - 4)
    ∧ (∀ i, searchWindows s.contribs shared = some i →
        inWindows s.contribs.length i
        ∧ ∃ r, s.contribs.get? i = some r ∧ r.shared = shared)
    ∧ (searchWindows s.contribs shared = none →
        ∀ i, inWindows s.contribs.length i →
          ∀ r, s.contribs.get? i = some r → r.shared ≠ shared)
    ∧ (∀ i r, searchWindows s.contribs shared = some i →
        s.contribs.get? i = some r →
        ∃ s', fan_add_normal_shared vertex shared s = some s'
          ∧ s'.contribs.length = s.contribs.length
          ∧ s'.contribs.get? i = some ⟨r.shared, r.sum + s.selectedFaceNormal⟩
          ∧ ∀ j, j ≠ i → s'.contribs.get? j = s.contribs.get? j)
    ∧ (searchWindows s.contribs shared = none →
        (∀ r ∈ s.contribs, r.shared ≠ shared) →
        s.contribs.length + 1 ≠ s.contribCapacity →
        ∃ s', fan_add_normal_shared vertex shared s = some s'
          ∧ s'.contribs = s.contribs ++ [⟨shared, s.selectedFaceNormal⟩]) := by
  refine ⟨Nat.min_le_right 4 _, ?_, ?_, ?_, ?_⟩
  · intro i hsw
    obtain ⟨hw, hm⟩ := searchWindows_some _ _ _ hsw
    exact ⟨hw, (matchesAt_iff _ _ _).1 hm⟩
  · intro hsw i hw r hget hs
    have := searchWindows_none _ _ hsw i hw
    rw [matchesAt_of_get? _ _ _ r hget hs] at this
    cases this
  · intro i r hsw hget
    refine ⟨_, by simp only [fan_add_normal_shared, hsw]; rfl, ?_, ?_, ?_⟩
    · exact addToNth_length _ _ _
    · exact addToNth_get?_eq _ _ _ _ hget
    · intro j hj
      exact addToNth_get?_ne _ _ _ _ hj
  · intro hsw hnomatch hcap
    have hany : s.contribs.any (fun r => r.shared == shared) = false := by
      rw [List.any_eq_false]
      intro r hr
      simp [hnomatch r hr]
    have hlen : (s.contribs ++ [(⟨shared, 0⟩ : FanNormalContrib)]).length
        = s.contribs.length + 1 := by simp
    obtain ⟨s', hs'⟩ : ∃ s', fan_add_normal_shared vertex shared s = some s' := by
      simp only [fan_add_normal_shared, hsw, hany]
      rw [if_neg Bool.false_ne_true, if_neg (by rw [hlen]; exact hcap)]
      exact ⟨_, rfl⟩
    refine ⟨s', hs', ?_⟩
    have heq := hs'
    simp only [fan_add_normal_shared, hsw, hany] at heq
    rw [if_neg Bool.false_ne_true, if_neg (by rw [hlen]; exact hcap)] at heq
    have hXs : _ = s' := Option.some.inj heq
    subst hXs
    show addToNth (s.contribs ++ [⟨shared, 0⟩])
        ((s.contribs ++ [(⟨shared, 0⟩ : FanNormalContrib)]).length - 1)
        s.selectedFaceNormal
      = s.contribs ++ [⟨shared, s.selectedFaceNormal⟩]
    rw [addToNth_append_last]
    rw [show ((⟨shared, 0⟩ : FanNormalContrib).sum + s.selectedFaceNormal)
          = s.selectedFaceNormal from V3.zero_add _]

/-- C2 witness: on a one-record writer, the search finds the record for shared
vertex 5 and merges into it, and appends a fresh record for shared vertex 7. -/
theorem fan_add_normal_shared_two_window_search_witness :
    (∃ s', fan_add_normal_shared 0 5 writerOneRec = some s'
      ∧ s'.contribs.get? 0
          = some ⟨5, (0 : V3) + writerOneRec.selectedFaceNormal⟩)
    ∧ (∃ s', fan_add_normal_shared 0 7 writerOneRec = some s'
      ∧ s'.contribs
          = writerOneRec.contribs ++ [⟨7, writerOneRec.selectedFaceNormal⟩]) := by
  constructor
  · obtain ⟨s', h1, _, h3, _⟩ :=
      (fan_add_normal_shared_two_window_search writerOneRec 0 5).2.2.2.1 0
        ⟨5, 0⟩ rfl rfl
    exact ⟨s', h1, h3⟩
  · exact (fan_add_normal_shared_two_window_search writerOneRec 0 7).2.2.2.2
      rfl (by simp [writerOneRec, emptyWriter]) (by simp [writerOneRec, emptyWriter])

/-- C7: if the two-window search finds no contribution record for the shared
vertex while a matching record exists somewhere in the chunk's list, the
`LGRN_ASSERTM` (`none_of` over the whole list) fires instead of silently
appending a duplicate record. -/
theorem fan_missed_match_asserts (s : TerrainFaceWriter) (vertex shared : ℕ)
    (hnone : searchWindows s.contribs shared = none)
    (hex : ∃ r ∈ s.contribs, r.shared = shared) :
    fan_add_normal_shared vertex shared s = none := by
  simp only [fan_add_normal_shared, hnone]
  obtain ⟨r, hr, hs⟩ := hex
  have hany : s.contribs.any (fun r => r.shared == shared) = true :=
    List.any_eq_true.2 ⟨r, hr, by simp [hs]⟩
  simp [hany]

/-- C7 witness: nine records for shared vertices `0..8`; the windows are
`[5, 9)` and `[0, 4)`, so the record for shared vertex 4 at index 4 is missed
and the assertion fires. -/
theorem fan_missed_match_asserts_witness :
    fan_add_normal_shared 0 4 writerNineRecs = none := by
  apply fan_missed_match_asserts writerNineRecs 0 4 rfl
  exact ⟨⟨4, 0⟩, by simp [writerNineRecs, emptyWriter], rfl⟩

/-- C4: after any call that contributes a face normal to a shared vertex, the
dirty-set bit for that shared vertex's handle is set.  For
`fill_add_normal_shared` the bit is set directly.  For
`fan_add_normal_shared` within one chunk build, under the build invariant
that every existing record's shared vertex is already marked (which holds at
the start of the build and is preserved by every call, including those that
merge into an existing record), the bit is set after the call. -/
theorem contribution_marks_dirty (s : TerrainFaceWriter)
    (vertex localId shared : ℕ) (hinv : dirtyInv s) :
    (fill_add_normal_shared vertex localId s).dirty (s.sharedUsed localId) = true
    ∧ ∀ s', fan_add_normal_shared vertex shared s = some s' →
        s'.dirty shared = true ∧ dirtyInv s' := by
  constructor
  · simp [fill_add_normal_shared]
  · intro s' hs'
    simp only [fan_add_normal_shared] at hs'
    cases hsw : searchWindows s.contribs shared with
    | some i =>
      rw [hsw] at hs'
      have hXs : _ = s' := Option.some.inj hs'
      subst hXs
      obtain ⟨_, hm⟩ := searchWindows_some _ _ _ hsw
      obtain ⟨r, hget, hshr⟩ := (matchesAt_iff _ _ _).1 hm
      have hdr : s.dirty shared = true := by
        rw [← hshr]
        exact hinv r (List.get?_mem hget)
      refine ⟨hdr, ?_⟩
      intro r' hr'
      obtain ⟨r0, hr0, hs0⟩ := addToNth_mem_shared _ _ _ r' hr'
      show s.dirty r'.shared = true
      rw [hs0]
      exact hinv r0 hr0
    | none =>
      rw [hsw] at hs'
      cases hany : s.contribs.any (fun r => r.shared == shared) with
      | true => rw [hany] at hs'; cases hs'
      | false =>
        rw [hany] at hs'
        rw [if_neg Bool.false_ne_true] at hs'
        by_cases hcap : (s.contribs ++ [(⟨shared, 0⟩ : FanNormalContrib)]).length
            = s.contribCapacity
        · rw [if_pos hcap] at hs'
          cases hs'
        · rw [if_neg hcap] at hs'
          have hXs : _ = s' := Option.some.inj hs'
          subst hXs
          refine ⟨by simp, ?_⟩
          intro r' hr'
          obtain ⟨r0, hr0, hs0⟩ := addToNth_mem_shared _ _ _ r' hr'
          show (if r'.shared = shared then true else s.dirty r'.shared) = true
          rcases List.mem_append.1 hr0 with hmem | hmem
          · by_cases hrs : r'.shared = shared
            · simp [hrs]
            · rw [if_neg hrs, hs0]
              exact hinv r0 hmem
          · have : r0 = ⟨shared, 0⟩ := List.mem_singleton.1 hmem
            subst this
            rw [if_pos (by rw [hs0])]

/-- C10: while the chunk's contribution list holds at most 8 records the two
search windows jointly cover the entire list.  Consequently a successful call
appends a new record if and only if no record for that shared vertex exists
anywhere in the list, and the only assertion that can fire is the capacity
assertion. -/
theorem fan_search_exhaustive_small (s : TerrainFaceWriter)
    (vertex shared : ℕ) (h8 : s.contribs.length ≤ 8) :
    (searchWindows s.contribs shared = none
        ↔ ∀ r ∈ s.contribs, r.shared ≠ shared)
    ∧ (∀ s', fan_add_normal_shared vertex shared s = some s' →
        (s'.contribs.length = s.contribs.length + 1
          ↔ ∀ r ∈ s.contribs, r.shared ≠ shared))
    ∧ (fan_add_normal_shared vertex shared s = none →
        s.contribs.length + 1 = s.contribCapacity) := by
  refine ⟨searchWindows_none_iff_of_le_8 _ _ h8, ?_, ?_⟩
  · intro s' hs'
    simp only [fan_add_normal_shared] at hs'
    cases hsw : searchWindows s.contribs shared with
    | some i =>
      rw [hsw] at hs'
      have hXs : _ = s' := Option.some.inj hs'
      subst hXs
      have hlen : (addToNth s.contribs i s.selectedFaceNormal).length
          = s.contribs.length := addToNth_length _ _ _
      obtain ⟨_, hm⟩ := searchWindows_some _ _ _ hsw
      obtain ⟨r, hget, hshr⟩ := (matchesAt_iff _ _ _).1 hm
      constructor
      · intro hL
        rw [hlen] at hL
        omega
      · intro hno
        exact absurd hshr (hno r (List.get?_mem hget))
    | none =>
      rw [hsw] at hs'
      have hno := (searchWindows_none_iff_of_le_8 _ _ h8).1 hsw
      have hany : s.contribs.any (fun r => r.shared == shared) = false := by
        rw [List.any_eq_false]
        intro r hr
        simp [hno r hr]
      rw [hany, if_neg Bool.false_ne_true] at hs'
      by_cases hcap : (s.contribs ++ [(⟨shared, 0⟩ : FanNormalContrib)]).length
          = s.contribCapacity
      · rw [if_pos hcap] at hs'
        cases hs'
      · rw [if_neg hcap] at hs'
        have hXs : _ = s' := Option.some.inj hs'
        subst hXs
        have : (addToNth (s.contribs ++ [(⟨shared, 0⟩ : FanNormalContrib)])
            ((s.contribs ++ [(⟨shared, 0⟩ : FanNormalContrib)]).length - 1)
            s.selectedFaceNormal).length = s.contribs.length + 1 := by
          rw [addToNth_length]
          simp
        exact iff_of_true this hno
  · intro hnone
    simp only [fan_add_normal_shared] at hnone
    cases hsw : searchWindows s.contribs shared with
    | some i =>
      rw [hsw] at hnone
      cases hnone
    | none =>
      rw [hsw] at hnone
      have hno := (searchWindows_none_iff_of_le_8 _ _ h8).1 hsw
      have hany : s.contribs.any (fun r => r.shared == shared) = false := by
        rw [List.any_eq_false]
        intro r hr
        simp [hno r hr]
      rw [hany, if_neg Bool.false_ne_true] at hnone
      by_cases hcap : (s.contribs ++ [(⟨shared, 0⟩ : FanNormalContrib)]).length
          = s.contribCapacity
      · rw [List.length_append] at hcap
        simpa using hcap
      · rw [if_neg hcap] at hnone
        cases hnone

/-- C10 witness: a writer with a single record: merging into it keeps the
length, so the append-iff-no-match equivalence is decided concretely, and the
search outcome matches list membership. -/
theorem fan_search_exhaustive_small_witness :
    (searchWindows writerOneRec.contribs 5 = none
        ↔ ∀ r ∈ writerOneRec.contribs, r.shared ≠ 5)
    ∧ (fan_add_normal_shared 0 5 writerOneRec).map
        (fun t => t.contribs.length) = some 1 := by
  have h := fan_search_exhaustive_small writerOneRec 0 5 (by simp [writerOneRec, emptyWriter])
  refine ⟨h.1, ?_⟩
  obtain ⟨t, ht⟩ : ∃ t, fan_add_normal_shared 0 5 writerOneRec = some t := ⟨_, rfl⟩
  rw [ht]
  have h2 := (h.2.1 t ht).2
  have hlen : ¬ t.contribs.length = writerOneRec.contribs.length + 1 := by
    intro hL
    have := (h.2.1 t ht).1 hL ⟨5, 0⟩ (by simp [writerOneRec, emptyWriter])
    simp at this
  have hle : t.contribs.length = 1 := by
    have hsome := ht
    simp only [fan_add_normal_shared] at hsome
    cases hsw : searchWindows writerOneRec.contribs 5 with
    | some i =>
      rw [hsw] at hsome
      have hXs : _ = t := Option.some.inj hsome
      subst hXs
      show (addToNth writerOneRec.contribs i writerOneRec.selectedFaceNormal).length = 1
      rw [addToNth_length]
      rfl
    | none =>
      exfalso
      have := (h.1).1 hsw ⟨5, 0⟩ (by simp [writerOneRec, emptyWriter])
      simp at this
  simp [hle]

/-- C4 witness: on a fresh writer (empty list, all bits clear) the invariant
holds vacuously; both a fill contribution and a fan contribution mark their
shared vertex dirty. -/
theorem contribution_marks_dirty_witness :
    (fill_add_normal_shared 0 1 emptyWriter).dirty (emptyWriter.sharedUsed 1)
        = true
    ∧ (fan_add_normal_shared 0 2 emptyWriter).map (fun t => t.dirty 2)
        = some true := by
  have h := contribution_marks_dirty emptyWriter 0 1 2 (fun r hr => absurd hr (by simp [emptyWriter]))
  refine ⟨h.1, ?_⟩
  obtain ⟨t, ht⟩ : ∃ t, fan_add_normal_shared 0 2 emptyWriter = some t := ⟨_, rfl⟩
  rw [ht]
  simp [(h.2 t ht).1]

end TerrainFaceWriter

/-- C8: the method `resize` sizes each buffer from the topology's declared capacities:
the index buffer gets `maxChunks * chunkMaxFaceCount` entries, the fan
contribution array `maxChunks * fanMaxSharedCount` records, the fill-shared
normal array `maxChunks * chunkSharedCount` entries, the shared-normal array
`maxSharedVrtx` entries, and the position and normal vertex buffers each get
`info.vbufSize` entries. -/
theorem resize_buffer_sizes (g : BasicTerrainGeometry) (skCh : ChunkSkeleton)
    (info : ChunkMeshBufferInfo) :
    (g.resize skCh info).chunkVbufPos.length = info.vbufSize
    ∧ (g.resize skCh info).chunkVbufNrm.length = info.vbufSize
    ∧ (g.resize skCh info).chunkIbuf.length
        = skCh.chunkIdsCapacity * info.chunkMaxFaceCount
    ∧ (g.resize skCh info).chunkFanNormalContrib.length
        = skCh.chunkIdsCapacity * info.fanMaxSharedCount
    ∧ (g.resize skCh info).chunkFillSharedNormals.length
        = skCh.chunkIdsCapacity * skCh.chunkSharedCount
    ∧ (g.resize skCh info).sharedNormals.length = skCh.sharedIdsCapacity :=
  ⟨vecResize_length _ _ _, vecResize_length _ _ _, vecResize_length _ _ _,
   vecResize_length _ _ _, vecResize_length _ _ _, vecResize_length _ _ _⟩

/-- C6: resizing to a larger capacity leaves all previously written vertex
position, normal and index buffer entries unchanged, and every newly added
scratch slot — fan-normal contribution record, fill-shared normal, shared
normal — holds the zero vector. -/
theorem resize_preserves_and_zeroes (g : BasicTerrainGeometry)
    (skCh : ChunkSkeleton) (info : ChunkMeshBufferInfo)
    (hpos : g.chunkVbufPos.length ≤ info.vbufSize)
    (hnrm : g.chunkVbufNrm.length ≤ info.vbufSize)
    (hibuf : g.chunkIbuf.length ≤ skCh.chunkIdsCapacity * info.chunkMaxFaceCount)
    (hfan : g.chunkFanNormalContrib.length
        ≤ skCh.chunkIdsCapacity * info.fanMaxSharedCount)
    (hfill : g.chunkFillSharedNormals.length
        ≤ skCh.chunkIdsCapacity * skCh.chunkSharedCount)
    (hshared : g.sharedNormals.length ≤ skCh.sharedIdsCapacity) :
    (∀ i, i < g.chunkVbufPos.length →
      (g.resize skCh info).chunkVbufPos.get? i = g.chunkVbufPos.get? i)
    ∧ (∀ i, i < g.chunkVbufNrm.length →
      (g.resize skCh info).chunkVbufNrm.get? i = g.chunkVbufNrm.get? i)
    ∧ (∀ i, i < g.chunkIbuf.length →
      (g.resize skCh info).chunkIbuf.get? i = g.chunkIbuf.get? i)
    ∧ (∀ i, g.chunkFanNormalContrib.length ≤ i →
        i < skCh.chunkIdsCapacity * info.fanMaxSharedCount →
      (g.resize skCh info).chunkFanNormalContrib.get? i = some ⟨0, 0⟩)
    ∧ (∀ i, g.chunkFillSharedNormals.length ≤ i →
        i < skCh.chunkIdsCapacity * skCh.chunkSharedCount →
      (g.resize skCh info).chunkFillSharedNormals.get? i = some 0)
    ∧ (∀ i, g.sharedNormals.length ≤ i → i < skCh.sharedIdsCapacity →
      (g.resize skCh info).sharedNormals.get? i = some 0) := by
  refine ⟨?_, ?_, ?_, ?_, ?_, ?_⟩
  · intro i hi
    exact vecResize_get?_preserved _ _ _ i hi hpos
  · intro i hi
    exact vecResize_get?_preserved _ _ _ i hi hnrm
  · intro i hi
    exact vecResize_get?_preserved _ _ _ i hi hibuf
  · intro i h1 h2
    exact vecResize_get?_new _ _ _ i h1 h2
  · intro i h1 h2
    exact vecResize_get?_new _ _ _ i h1 h2
  · intro i h1 h2
    exact vecResize_get?_new _ _ _ i h1 h2

/-- C6 witness: growing a one-entry-per-buffer store to larger sizes keeps
entry 0 of the vertex/index buffers and zero-fills a fresh scratch slot in
each scratch array. -/
theorem resize_preserves_and_zeroes_witness :
    ((smallGeometry.resize ⟨2, 3, 2⟩ ⟨4, 5, 6⟩).chunkVbufPos.get? 0
        = smallGeometry.chunkVbufPos.get? 0)
    ∧ ((smallGeometry.resize ⟨2, 3, 2⟩ ⟨4, 5, 6⟩).chunkIbuf.get? 0
        = smallGeometry.chunkIbuf.get? 0)
    ∧ ((smallGeometry.resize ⟨2, 3, 2⟩ ⟨4, 5, 6⟩).chunkFanNormalContrib.get? 5
        = some ⟨0, 0⟩)
    ∧ ((smallGeometry.resize ⟨2, 3, 2⟩ ⟨4, 5, 6⟩).sharedNormals.get? 2
        = some 0) := by
  have h := resize_preserves_and_zeroes smallGeometry ⟨2, 3, 2⟩ ⟨4, 5, 6⟩
    (by simp [smallGeometry]) (by simp [smallGeometry]) (by simp [smallGeometry])
    (by simp [smallGeometry]) (by simp [smallGeometry]) (by simp [smallGeometry])
  exact ⟨h.1 0 (by simp [smallGeometry]),
    h.2.2.1 0 (by simp [smallGeometry]),
    h.2.2.2.1 5 (by simp [smallGeometry]) (by norm_num),
    h.2.2.2.2.2 2 (by simp [smallGeometry]) (by norm_num)⟩

end Planeta
